import Mathlib

/-!
# BluTuNode command handlers (`src/commands.c`)

A shallow embedding of the command-processing core of the BluTuNode firmware
and the properties of its response/poll state machine.

The C handlers act on a `BtNodeCommandTask` (the per-connection record) and on
the BlueCore platform (PIO registers, ADC, message queue, persistent store,
byte sink).  Here both live in one explicit `State`; every platform call is
recorded in `State.trace`, bytes written to the sink are appended to
`State.out`, and queued `APP_MESSAGE_POLL` messages are kept in `State.queue`.
-/

namespace BluTuNode

/-! ## Bytes and formatting -/

/-- A sequence of bytes as written to the sink. -/
abbrev Bytes := List Char

/-- The NUL byte terminating a C string. -/
def NUL : Char := Char.ofNat 0

/-- Conversion to `uint16`. -/
def u16 (n : Nat) : Nat := n % 65536

/-- Conversion to `uint32`. -/
def u32 (n : Nat) : Nat := n % 4294967296

/-- The `%u` / `%lu` conversion of `sprintf`: decimal digits, no padding. -/
def fmt_u (n : Nat) : Bytes := Nat.toDigits 10 n

/-- The `%d` conversion of `sprintf`. -/
def fmt_d (n : Int) : Bytes :=
  if n < 0 then '-' :: Nat.toDigits 10 n.natAbs else Nat.toDigits 10 n.natAbs

/-- The `%X` conversion of `sprintf`: upper-case hexadecimal digits, no padding. -/
def fmt_X (n : Nat) : Bytes := (Nat.toDigits 16 n).map Char.toUpper

/-- The characters of a C string: everything before the first NUL. -/
def cstr (a : Bytes) : Bytes := a.takeWhile (fun c => c != NUL)

/-- `strncmp(a, b, n)` on C strings held as byte lists; reading past the end
of a list yields the terminating NUL.  The result is the difference of the
first pair of differing bytes, or 0. -/
def strncmp : Bytes → Bytes → Nat → Int
  | _, _, 0 => 0
  | a, b, n + 1 =>
    let c1 := a.headD NUL
    let c2 := b.headD NUL
    if c1 ≠ c2 then (c1.toNat : Int) - (c2.toNat : Int)
    else if c1 = NUL then 0
    else strncmp a.tail b.tail n

/-- `tolower` in the C locale. -/
def tolower (c : Char) : Char :=
  if 'A' ≤ c ∧ c ≤ 'Z' then Char.ofNat (c.toNat + 32) else c

/-! ## Data model -/

/-- The values of the platform's `VM_ADC_SRC_*` enumerators.  Their header is
not part of the sources, so they are parameters of the development. -/
structure VmAdcSrc where
  VM_ADC_SRC_AIO0 : Int
  VM_ADC_SRC_AIO1 : Int
  VM_ADC_SRC_VREF : Int
  VM_ADC_SRC_AIO2 : Int
  VM_ADC_SRC_AIO3 : Int
  VM_ADC_SRC_VDD_BAT : Int

def ADC0 (k : VmAdcSrc) : Int := k.VM_ADC_SRC_AIO0
def ADC1 (k : VmAdcSrc) : Int := k.VM_ADC_SRC_AIO1
def ADC2 (k : VmAdcSrc) : Int := k.VM_ADC_SRC_VREF
def ADC3 (k : VmAdcSrc) : Int := k.VM_ADC_SRC_AIO2
def ADC4 (k : VmAdcSrc) : Int := k.VM_ADC_SRC_AIO3
def ADC5 (k : VmAdcSrc) : Int := k.VM_ADC_SRC_VDD_BAT
def GPIO : Int := 10
def TEMP : Int := 20

/-- The assumption the range test `id <= ADC5` of `get_input_reading` relies
on: `ADC5` is the largest analog identifier and lies below ` GPIO`. -/
def VmAdcSrc.ordered (k : VmAdcSrc) : Prop :=
  ADC0 k ≤ ADC5 k ∧ ADC1 k ≤ ADC5 k ∧ ADC2 k ≤ ADC5 k ∧ ADC3 k ≤ ADC5 k ∧
  ADC4 k ≤ ADC5 k ∧ ADC5 k < GPIO

instance (k : VmAdcSrc) : Decidable k.ordered := by
  unfold VmAdcSrc.ordered
  infer_instance

/-- The numbering in which the six enumerators count up from 0 in the order
`AIO0, AIO1, VREF, AIO2, AIO3, VDD_BAT`. -/
def adcSrcSequential : VmAdcSrc := ⟨0, 1, 2, 3, 4, 5⟩

/-- `struct InputSource`: a named readable input. -/
structure InputSource where
  name : Bytes
  id : Int
deriving DecidableEq, Repr

/-- The table `INPUT_NAMES` (without its terminating `{0}` entry). -/
def INPUT_NAMES (k : VmAdcSrc) : List InputSource :=
  [ ⟨"ADC0".toList, ADC0 k⟩,
    ⟨"ADC1".toList, ADC1 k⟩,
    ⟨"ADC2".toList, ADC2 k⟩,
    ⟨"ADC3".toList, ADC3 k⟩,
    ⟨"ADC4".toList, ADC4 k⟩,
    ⟨"ADC5".toList, ADC5 k⟩,
    ⟨"GPIO".toList, GPIO⟩,
    ⟨"TEMP".toList, TEMP⟩ ]

/-- The poll fields of `BtNodeCommandTask`; `poll_source = none` is the null
pointer.  (The sink handle is constant and its byte stream is `State.out`.) -/
structure BtNodeCommandTask where
  poll_source : Option InputSource
  poll_period : Nat
deriving DecidableEq, Repr

/-- A call of a platform primitive, with its arguments. -/
inductive Call where
  | PioGet
  | PioSet (mask bits : Nat)
  | PioGetDir
  | PioSetDir (mask bits : Nat)
  | PioGetStrongBias
  | PioSetStrongBias (mask bits : Nat)
  | PioDebounce (mask count period : Nat)
  | PioGetCts
  | PioSetRts (level : Bool)
  | AdcRequest (id : Int)
  | VmGetTemperature
  | VmGetClock
  | VmDeepSleepEnable (state : Nat)
  | VmGetAvailableAllocations
  | PsFullRetrieve (key : Nat)
  | ConnectionReadBtVersion
  | ConnectionReadLocalVersion
  | MessageSend
  | MessageSendLater (delay : Nat)
deriving DecidableEq, Repr

/-- The connection record together with the platform it runs on. -/
structure State where
  /-- The connection record `*self`. -/
  self : BtNodeCommandTask
  /-- Bytes written to `self->sink`, oldest first. -/
  out : Bytes
  /-- The PIO level register. -/
  pio : Nat
  /-- The PIO direction register. -/
  pioDir : Nat
  /-- The PIO strong-bias register. -/
  pioStrongBias : Nat
  /-- What `PioGetCts` currently reads. -/
  cts : Nat
  /-- What `VmGetTemperature` currently reads. -/
  temperature : Nat
  /-- What `VmGetClock` currently reads. -/
  clock : Nat
  /-- What `VmGetAvailableAllocations` currently reads. -/
  allocations : Nat
  /-- The delays of the `APP_MESSAGE_POLL` messages sent to this task and not
  yet delivered, in sending order. -/
  queue : List Nat
  /-- Every platform call made so far, oldest first. -/
  trace : List Call
deriving DecidableEq, Repr

/-- The behaviour of the platform that the handlers only observe. -/
structure Env where
  /-- The `VM_ADC_SRC_*` values. -/
  adc : VmAdcSrc
  /-- Whether `AdcRequest` accepts a request for a source, given the calls
  made before it. -/
  adcAccepts : List Call → Int → Bool
  /-- The words `PsFullRetrieve` copies out for a key; the empty list when the
  key is absent or its value exceeds the buffer. -/
  psWords : Nat → List Nat
  /-- The result of `PioSetRts`. -/
  rtsResult : Bool → Bool
  /-- The result of `VmDeepSleepEnable`. -/
  sleepResult : Nat → Nat
  /-- The string `render_enum` yields for an index outside its table. -/
  enumUnknown : Bytes

/-! ## Platform primitives -/

def State.log (s : State) (c : Call) : State := { s with trace := s.trace ++ [c] }

/-- Modelled from the spec: the byte sink `write(bytes)` of `utils.h`, whose
definition is not among the sources; writes appear in issue order. -/
def sink_write (s : State) (data : Bytes) (len : Nat) : State :=
  { s with out := s.out ++ data.take len }

/-- Modelled from the spec: the byte sink `write_str(text)` of `utils.h`, whose
definition is not among the sources; it writes the C string up to its NUL. -/
def sink_write_str (s : State) (str : Bytes) : State :=
  { s with out := s.out ++ cstr str }

/-- Modelled from the spec: `render_enum` of `utils.h`, whose definition is not
among the sources; an index outside the table renders as a placeholder. -/
def render_enum (env : Env) (value : Nat) (table : List Bytes) (count : Nat) : Bytes :=
  if value < count then table.getD value env.enumUnknown else env.enumUnknown

/-- The complement of a 16-bit mask. -/
def not16 (mask : Nat) : Nat := 65535 ^^^ u16 mask

/-- Modelled from the spec: mask/bits semantics of the platform's register
setters (only bit positions set in `mask` are affected, and their new value
comes from the corresponding bits of `bits`). -/
def maskBits (old mask bits : Nat) : Nat :=
  (u16 old &&& not16 mask) ||| (u16 bits &&& u16 mask)

def PioGet (s : State) : Nat × State := (u16 s.pio, s.log Call.PioGet)

def PioSet (mask bits : Nat) (s : State) : State :=
  { s.log (Call.PioSet (u16 mask) (u16 bits)) with pio := maskBits s.pio mask bits }

def PioGetDir (s : State) : Nat × State := (u16 s.pioDir, s.log Call.PioGetDir)

def PioSetDir (mask bits : Nat) (s : State) : State :=
  { s.log (Call.PioSetDir (u16 mask) (u16 bits)) with pioDir := maskBits s.pioDir mask bits }

def PioGetStrongBias (s : State) : Nat × State :=
  (u16 s.pioStrongBias, s.log Call.PioGetStrongBias)

def PioSetStrongBias (mask bits : Nat) (s : State) : State :=
  { s.log (Call.PioSetStrongBias (u16 mask) (u16 bits)) with
    pioStrongBias := maskBits s.pioStrongBias mask bits }

def PioDebounce (mask count period : Nat) (s : State) : State :=
  s.log (Call.PioDebounce mask count period)

def PioGetCts (s : State) : Nat × State := (s.cts, s.log Call.PioGetCts)

def PioSetRts (env : Env) (level : Bool) (s : State) : Bool × State :=
  (env.rtsResult level, s.log (Call.PioSetRts level))

def AdcRequest (env : Env) (id : Int) (s : State) : Bool × State :=
  (env.adcAccepts s.trace id, s.log (Call.AdcRequest id))

def VmGetTemperature (s : State) : Nat × State :=
  (s.temperature, s.log Call.VmGetTemperature)

def VmGetClock (s : State) : Nat × State := (s.clock, s.log Call.VmGetClock)

def VmDeepSleepEnable (env : Env) (state : Nat) (s : State) : Nat × State :=
  (env.sleepResult state, s.log (Call.VmDeepSleepEnable state))

def VmGetAvailableAllocations (s : State) : Nat × State :=
  (s.allocations, s.log Call.VmGetAvailableAllocations)

def PsFullRetrieve (env : Env) (key : Nat) (s : State) : List Nat × State :=
  (env.psWords key, s.log (Call.PsFullRetrieve key))

def ConnectionReadBtVersion (s : State) : State := s.log Call.ConnectionReadBtVersion

def ConnectionReadLocalVersion (s : State) : State := s.log Call.ConnectionReadLocalVersion

/-- `MessageSend(task, APP_MESSAGE_POLL, NULL)`: queue a message with no delay. -/
def MessageSend (s : State) : State :=
  { s.log Call.MessageSend with queue := s.queue ++ [0] }

/-- `MessageSendLater(task, APP_MESSAGE_POLL, NULL, delay)`. -/
def MessageSendLater (delay : Nat) (s : State) : State :=
  { s.log (Call.MessageSendLater delay) with queue := s.queue ++ [delay] }

/-! ## Response writer -/

def CRLF : Bytes := "\r\n".toList

def HEADER : Bytes :=
  ("BluTuNode 0.7 Copyright (c)2012 by Paul Sokolovsky\r\n" ++
   "This program is free software; you can redistribute and/or modify\r\n" ++
   "it under the terms of the GNU General Public License as published\r\n" ++
   "by Free Software Foundation; either version 3 or any later version.\r\n" ++
   "This program comes with NO WARRANTY.\r\n").toList

def write_uint_response (s : State) (value : Nat) : State :=
  sink_write_str s (fmt_u (u16 value) ++ CRLF)

def write_uint32_response (s : State) (value : Nat) : State :=
  sink_write_str s (fmt_u (u32 value) ++ CRLF)

def write_ok (s : State) : State := sink_write_str s "OK\r\n".toList

def write_ok_uint (s : State) (value : Nat) : State :=
  sink_write_str s ("OK ".toList ++ fmt_u (u32 value) ++ CRLF)

def write_error (s : State) : State := sink_write_str s "ERROR\r\n".toList

/-! ## The reading resolver -/

/-- `get_input_reading(task, id, value)`: the status (1 immediate, 0 deferred,
-1 error), the content of `*value` afterwards, and the state afterwards. -/
def get_input_reading (env : Env) (id : Int) (value : Nat) (s : State) : Int × Nat × State :=
  if id ≤ ADC5 env.adc then
    let r := AdcRequest env id s
    if !r.1 then (-1, value, r.2) else (0, value, r.2)
  else if id = GPIO then
    let r := PioGet s
    (1, u16 r.1, r.2)
  else if id = TEMP then
    let r := VmGetTemperature s
    (1, u16 r.1, r.2)
  else (-1, value, s)

/-! ## Command arguments -/

/-- A string argument as delivered by the command decoder: a pointer into the
line (`data`, the bytes from the start of the token to the end of the line)
and the token's declared length. -/
structure Token where
  data : Bytes
  length : Nat
deriving DecidableEq, Repr

structure command_gpio_set_args where
  mask : Nat
  bits : Nat
deriving DecidableEq, Repr

structure command_gpio_pin_get_args where
  pin : Nat
deriving DecidableEq, Repr

structure command_gpio_pin_set_args where
  pin : Nat
  value : Token
deriving DecidableEq, Repr

structure command_pin_value_args where
  pin : Nat
  value : Nat
deriving DecidableEq, Repr

structure command_gpio_watch_set_args where
  mask : Nat
  count : Nat
  period : Nat
deriving DecidableEq, Repr

structure command_poll_set_args where
  input : Token
  period : Nat
deriving DecidableEq, Repr

/-- The fields of `CL_DM_LOCAL_VERSION_CFM_T` that are printed. -/
structure CL_DM_LOCAL_VERSION_CFM_T where
  hciVersion : Nat
  hciRevision : Int
  lmpVersion : Int
  lmpSubVersion : Int
  manufacturerName : Int
deriving DecidableEq, Repr

/-! ## Command handlers -/

def command_ok (s : State) : State := write_ok s

def command_gpio_get (s : State) : State :=
  let r := PioGet s
  write_uint_response r.2 r.1

def command_gpio_set (args : command_gpio_set_args) (s : State) : State :=
  write_ok (PioSet args.mask args.bits s)

/-- The C expression `!!(reg & (1 << pin))`. -/
def pinBit (reg pin : Nat) : Nat := if reg &&& (1 <<< pin) ≠ 0 then 1 else 0

def command_gpio_pin_get (args : command_gpio_pin_get_args) (s : State) : State :=
  let r := PioGet s
  write_uint_response r.2 (pinBit r.1 args.pin)

def command_gpio_pin_set (args : command_gpio_pin_set_args) (s : State) : State :=
  let mask := u16 (1 <<< args.pin)
  let value := args.value.data.headD NUL
  if tolower value = 't' then
    let r := PioGet s
    write_ok (PioSet mask (r.1 ^^^ mask) r.2)
  else
    write_ok (PioSet mask (if value = '0' then 0 else mask) s)

def command_gpiodir_get (s : State) : State :=
  let r := PioGetDir s
  write_uint_response r.2 r.1

def command_gpiodir_set (args : command_gpio_set_args) (s : State) : State :=
  write_ok (PioSetDir args.mask args.bits s)

def command_gpiodir_pin_get (args : command_gpio_pin_get_args) (s : State) : State :=
  let r := PioGetDir s
  write_uint_response r.2 (pinBit r.1 args.pin)

def command_gpiodir_pin_set (args : command_pin_value_args) (s : State) : State :=
  let mask := u16 (1 <<< args.pin)
  write_ok (PioSetDir mask (if args.value ≠ 0 then mask else 0) s)

def command_gpiosbias_get (s : State) : State :=
  let r := PioGetStrongBias s
  write_uint_response r.2 r.1

def command_gpiosbias_set (args : command_gpio_set_args) (s : State) : State :=
  write_ok (PioSetStrongBias args.mask args.bits s)

def command_gpiosbias_pin_get (args : command_gpio_pin_get_args) (s : State) : State :=
  let r := PioGetStrongBias s
  write_uint_response r.2 (pinBit r.1 args.pin)

def command_gpiosbias_pin_set (args : command_pin_value_args) (s : State) : State :=
  let mask := u16 (1 <<< args.pin)
  write_ok (PioSetStrongBias mask (if args.value ≠ 0 then mask else 0) s)

def command_gpio_watch_set (args : command_gpio_watch_set_args) (s : State) : State :=
  write_ok (PioDebounce args.mask args.count args.period s)

def command_cts_get (s : State) : State :=
  let r := PioGetCts s
  write_uint_response r.2 r.1

def command_rts_set (env : Env) (value : Nat) (s : State) : State :=
  let r := PioSetRts env (decide (value ≠ 0)) s
  if r.1 then write_ok r.2 else write_error r.2

def command_adc_get (env : Env) (channel : Nat) (s : State) : State :=
  let r := AdcRequest env (channel : Int) s
  if !r.1 then write_error r.2 else r.2

def command_temp_get (s : State) : State :=
  let r := VmGetTemperature s
  write_uint_response r.2 r.1

/-- The loop of `command_poll_set` from table position `p` onwards, followed
by the `write_error` after the loop. -/
def command_poll_set_scan (args : command_poll_set_args) : List InputSource → State → State
  | [], s => write_error s
  | p :: rest, s =>
    if strncmp args.input.data p.name args.input.length = 0 then
      let s1 := { s with self := { s.self with poll_source := some p } }
      let s2 := { s1 with self := { s1.self with poll_period := args.period } }
      write_ok (MessageSend s2)
    else command_poll_set_scan args rest s

def command_poll_set (env : Env) (args : command_poll_set_args) (s : State) : State :=
  command_poll_set_scan args (INPUT_NAMES env.adc) s

def command_poll_reset (s : State) : State :=
  let s1 := { s with self := { s.self with poll_source := none } }
  let s2 := { s1 with self := { s1.self with poll_period := 0 } }
  write_ok s2

def command_poll_handle (env : Env) (s : State) : State :=
  match s.self.poll_source with
  | none => s
  | some src =>
    let r := get_input_reading env src.id 0 s
    let status := r.1
    let value := r.2.1
    let buf : Bytes :=
      if status > 0 then cstr src.name ++ "=".toList ++ fmt_u value ++ CRLF
      else if status < 0 then cstr src.name ++ "=ERROR\r\n".toList
      else []
    let s1 := if status ≠ 0 then sink_write_str r.2.2 buf else r.2.2
    MessageSendLater s1.self.poll_period s1

/-- The `for` loop of `command_pskey_get`: each word is formatted with
`"%X "` into `buf` and the first 3 bytes of `buf` are written. -/
def command_pskey_get_loop : List Nat → State → State
  | [], s => s
  | w :: ws, s =>
    let buf := fmt_X (u16 w) ++ [' ', NUL]
    command_pskey_get_loop ws (sink_write s buf 3)

def command_pskey_get (env : Env) (pskey : Nat) (s : State) : State :=
  let r := PsFullRetrieve env pskey s
  let size := r.1.length
  if size = 0 then
    sink_write_str r.2 "ERROR: no pskey or value too long\r\n".toList
  else
    write_ok_uint (command_pskey_get_loop r.1 r.2) size

def command_clk_get (s : State) : State :=
  let r := VmGetClock s
  write_uint32_response r.2 r.1

def command_sleep_set (env : Env) (state : Nat) (s : State) : State :=
  let r := VmDeepSleepEnable env state s
  write_ok_uint r.2 r.1

def command_alloc_get (s : State) : State :=
  let r := VmGetAvailableAllocations s
  write_uint_response r.2 r.1

def command_bt_version_get (s : State) : State := ConnectionReadBtVersion s

def bt_vers : List Bytes := ["UNK".toList, "2.0".toList, "2.1".toList]

def command_bt_version_handle (env : Env) (version : Nat) (s : State) : State :=
  sink_write (sink_write_str s (render_enum env version bt_vers bt_vers.length)) CRLF 2

def command_local_version_get (s : State) : State := ConnectionReadLocalVersion s

def hci_vers : List Bytes :=
  ["1.0 (0)".toList, "1.1 (1)".toList, "1.2 (2)".toList, "2.0 (3)".toList, "2.1 (4)".toList]

def command_local_version_handle (env : Env) (tmsg : CL_DM_LOCAL_VERSION_CFM_T)
    (s : State) : State :=
  let s1 := sink_write_str s
    ("HCI ver: ".toList ++ cstr (render_enum env tmsg.hciVersion hci_vers hci_vers.length) ++ CRLF)
  let s2 := sink_write_str s1 ("HCI rev: ".toList ++ fmt_d tmsg.hciRevision ++ CRLF)
  let s3 := sink_write_str s2 ("LMP ver: ".toList ++ fmt_d tmsg.lmpVersion ++ CRLF)
  let s4 := sink_write_str s3 ("LMP subver: ".toList ++ fmt_d tmsg.lmpSubVersion ++ CRLF)
  sink_write_str s4 ("Manf id: ".toList ++ fmt_d tmsg.manufacturerName ++ CRLF)

def command_software_version (s : State) : State :=
  write_ok (sink_write s HEADER HEADER.length)

def handleUnrecognised (_data : Bytes) (_length : Nat) (s : State) : State :=
  write_error s

/-! ## Dispatch -/

/-- A decoded command or asynchronous confirmation, with its arguments. -/
inductive Command where
  | ok
  | gpio_get
  | gpio_set (args : command_gpio_set_args)
  | gpio_pin_get (args : command_gpio_pin_get_args)
  | gpio_pin_set (args : command_gpio_pin_set_args)
  | gpiodir_get
  | gpiodir_set (args : command_gpio_set_args)
  | gpiodir_pin_get (args : command_gpio_pin_get_args)
  | gpiodir_pin_set (args : command_pin_value_args)
  | gpiosbias_get
  | gpiosbias_set (args : command_gpio_set_args)
  | gpiosbias_pin_get (args : command_gpio_pin_get_args)
  | gpiosbias_pin_set (args : command_pin_value_args)
  | gpio_watch_set (args : command_gpio_watch_set_args)
  | cts_get
  | rts_set (value : Nat)
  | adc_get (channel : Nat)
  | temp_get
  | poll_set (args : command_poll_set_args)
  | poll_reset
  | pskey_get (pskey : Nat)
  | clk_get
  | sleep_set (state : Nat)
  | alloc_get
  | bt_version_get
  | bt_version_handle (version : Nat)
  | local_version_get
  | local_version_handle (tmsg : CL_DM_LOCAL_VERSION_CFM_T)
  | software_version
  | unrecognised (data : Bytes) (length : Nat)
deriving DecidableEq, Repr

/-- Run the handler of a command. -/
def Command.exec (env : Env) : Command → State → State
  | .ok, s => command_ok s
  | .gpio_get, s => command_gpio_get s
  | .gpio_set a, s => command_gpio_set a s
  | .gpio_pin_get a, s => command_gpio_pin_get a s
  | .gpio_pin_set a, s => command_gpio_pin_set a s
  | .gpiodir_get, s => command_gpiodir_get s
  | .gpiodir_set a, s => command_gpiodir_set a s
  | .gpiodir_pin_get a, s => command_gpiodir_pin_get a s
  | .gpiodir_pin_set a, s => command_gpiodir_pin_set a s
  | .gpiosbias_get, s => command_gpiosbias_get s
  | .gpiosbias_set a, s => command_gpiosbias_set a s
  | .gpiosbias_pin_get a, s => command_gpiosbias_pin_get a s
  | .gpiosbias_pin_set a, s => command_gpiosbias_pin_set a s
  | .gpio_watch_set a, s => command_gpio_watch_set a s
  | .cts_get, s => command_cts_get s
  | .rts_set v, s => command_rts_set env v s
  | .adc_get c, s => command_adc_get env c s
  | .temp_get, s => command_temp_get s
  | .poll_set a, s => command_poll_set env a s
  | .poll_reset, s => command_poll_reset s
  | .pskey_get k, s => command_pskey_get env k s
  | .clk_get, s => command_clk_get s
  | .sleep_set st, s => command_sleep_set env st s
  | .alloc_get, s => command_alloc_get s
  | .bt_version_get, s => command_bt_version_get s
  | .bt_version_handle v, s => command_bt_version_handle env v s
  | .local_version_get, s => command_local_version_get s
  | .local_version_handle m, s => command_local_version_handle env m s
  | .software_version, s => command_software_version s
  | .unrecognised d l, s => handleUnrecognised d l s

/-- One entry into the single-threaded dispatch context. -/
inductive Event where
  /-- A decoded command (or a confirmation) is handled. -/
  | command (c : Command)
  /-- The pending `APP_MESSAGE_POLL` message at position `i` of the queue is
  delivered. -/
  | tick (i : Nat)
deriving DecidableEq, Repr

/-- Modelled from the spec: the timer facility and the dispatch of
`APP_MESSAGE_POLL` to `command_poll_handle`, which live outside
`commands.c`; a scheduled message is delivered exactly once, and its delivery
runs one poll tick.  Delivering a position that holds no message does nothing. -/
def deliver_poll (env : Env) (i : Nat) (s : State) : State :=
  if i < s.queue.length then
    command_poll_handle env { s with queue := s.queue.eraseIdx i }
  else s

def Event.step (env : Env) : Event → State → State
  | .command c, s => c.exec env s
  | .tick i, s => deliver_poll env i s

/-- Process a sequence of events, each run to completion before the next. -/
def run (env : Env) : List Event → State → State
  | [], s => s
  | e :: es, s => run env es (e.step env s)

/-- The registry operation `lookup(token)` in the words of the specification:
the first descriptor of the table whose name matches the token under a
comparison bounded by the token's declared length. -/
def lookup (k : VmAdcSrc) (tok : Token) : Option InputSource :=
  (INPUT_NAMES k).find? (fun p => strncmp tok.data p.name tok.length == 0)

/-- A state with polling inactive, nothing written, and nothing pending. -/
def State.init : State :=
  { self := ⟨none, 0⟩, out := [], pio := 0, pioDir := 0, pioStrongBias := 0, cts := 0,
    temperature := 0, clock := 0, allocations := 0, queue := [], trace := [] }

/-- A platform that accepts every ADC request and holds no persistent keys. -/
def Env.plain : Env :=
  { adc := adcSrcSequential, adcAccepts := fun _ _ => true, psWords := fun _ => [],
    rtsResult := fun _ => true, sleepResult := fun st => st, enumUnknown := "UNKNOWN".toList }

/-! ## Auxiliary definitions for the statements -/

/-- The bytes the loop of `command_pskey_get` writes for a list of words. -/
def pskey_tokens (ws : List Nat) : Bytes :=
  ws.flatMap (fun w => (fmt_X (u16 w) ++ [' ', NUL]).take 3)

/-- Whether a command is a `poll_set` whose name lookup hits. -/
def Command.isPollSetHit (env : Env) : Command → Bool
  | .poll_set args => (lookup env.adc args.input).isSome
  | _ => false

/-- Whether a command is `poll_reset`. -/
def Command.isPollReset : Command → Bool
  | .poll_reset => true
  | _ => false

/-- Whether an event is a `poll_set` command whose name lookup hits. -/
def Event.isPollSetHit (env : Env) : Event → Bool
  | .command c => c.isPollSetHit env
  | .tick _ => false

/-- A sequence of events without a successful `poll_set`, ending in a tick. -/
def noPollSetEvents : List Event :=
  [.command .temp_get, .command (.poll_set ⟨⟨"BOGUS".toList, 5⟩, 9⟩), .tick 0, .command .gpio_get]

/-- A state in which `TEMP` is polled every 5 time units and one tick is pending. -/
def pollingTemp : State :=
  { State.init with self := ⟨some ⟨"TEMP".toList, TEMP⟩, 5⟩, temperature := 23, queue := [5] }

/-- The state after `poll_set "TEMP" 5` and `poll_set "GPIO" 7` from the
initial state: the GPIO source is polled and two ticks are pending. -/
def twoStreams : State :=
  run Env.plain [.command (.poll_set ⟨⟨"TEMP".toList, 4⟩, 5⟩),
                 .command (.poll_set ⟨⟨"GPIO".toList, 4⟩, 7⟩)] State.init

/-- A port whose level register holds `0xABC0`. -/
def portABC0 : State := { State.init with pio := 0xABC0 }

/-- The characters of a token: the first `length` bytes at `data`. -/
def Token.text (tok : Token) : Bytes := tok.data.take tok.length

/-- A token agrees with a name when the two C strings coincide on the first
`length` characters, `length` being the token's declared length. -/
def Token.agrees (tok : Token) (name : Bytes) : Prop :=
  (cstr tok.data).take tok.length = (cstr name).take tok.length

/-- A platform whose persistent store yields the given words for every key. -/
def Env.withWords (ws : List Nat) : Env := { Env.plain with psWords := fun _ => ws }

/-! ## Auxiliary facts -/

theorem digitChar_ne_NUL (d : Nat) : Nat.digitChar d ≠ NUL := by
  by_cases h : d < 16
  · interval_cases d <;> decide
  · have hd : Nat.digitChar d = '*' := by
      unfold Nat.digitChar
      iterate 16 rw [if_neg (by omega)]
    rw [hd]; decide

theorem toDigitsCore_ne_NUL (b : Nat) : ∀ (f n : Nat) (ds : List Char),
    (∀ c ∈ ds, c ≠ NUL) → ∀ c ∈ Nat.toDigitsCore b f n ds, c ≠ NUL := by
  intro f
  induction f with
  | zero => intro n ds h c hc; simpa [Nat.toDigitsCore] using h c (by simpa [Nat.toDigitsCore] using hc)
  | succ f ih =>
    intro n ds h c hc
    simp only [Nat.toDigitsCore] at hc
    split at hc
    · rcases List.mem_cons.1 hc with rfl | hc
      · exact digitChar_ne_NUL _
      · exact h c hc
    · refine ih _ _ ?_ c hc
      intro c hc
      rcases List.mem_cons.1 hc with rfl | hc
      · exact digitChar_ne_NUL _
      · exact h c hc

theorem toDigits_ne_NUL (b n : Nat) : ∀ c ∈ Nat.toDigits b n, c ≠ NUL :=
  toDigitsCore_ne_NUL b _ _ [] (by simp)

theorem cstr_eq_self {a : Bytes} (h : ∀ c ∈ a, c ≠ NUL) : cstr a = a := by
  unfold cstr
  rw [List.takeWhile_eq_self_iff]
  intro c hc
  simpa using h c hc

theorem cstr_ne_NUL (a : Bytes) : ∀ c ∈ cstr a, c ≠ NUL := by
  intro c hc
  have := List.mem_takeWhile_imp hc
  simpa using this

theorem fmt_u_ne_NUL (n : Nat) : ∀ c ∈ fmt_u n, c ≠ NUL := toDigits_ne_NUL 10 n

theorem CRLF_ne_NUL : ∀ c ∈ CRLF, c ≠ NUL := by decide

theorem write_ok_eq (s : State) : write_ok s = { s with out := s.out ++ "OK\r\n".toList } := rfl

theorem write_error_eq (s : State) :
    write_error s = { s with out := s.out ++ "ERROR\r\n".toList } := rfl

/-- The status of `get_input_reading` is one of 1, 0, -1. -/
theorem get_input_reading_status (env : Env) (id : Int) (v : Nat) (s : State) :
    (get_input_reading env id v s).1 = 1 ∨ (get_input_reading env id v s).1 = 0 ∨
    (get_input_reading env id v s).1 = -1 := by
  simp only [get_input_reading, AdcRequest, PioGet, VmGetTemperature]
  split_ifs <;> simp

/-- The resolver changes nothing but the trace of platform calls. -/
theorem get_input_reading_frame (env : Env) (id : Int) (v : Nat) (s : State) :
    ∃ cs, (get_input_reading env id v s).2.2 = { s with trace := s.trace ++ cs } := by
  simp only [get_input_reading, AdcRequest, PioGet, VmGetTemperature]
  split_ifs
  · exact ⟨[Call.AdcRequest id], rfl⟩
  · exact ⟨[Call.AdcRequest id], rfl⟩
  · exact ⟨[Call.PioGet], rfl⟩
  · exact ⟨[Call.VmGetTemperature], rfl⟩
  · exact ⟨[], by simp⟩

theorem table_names_cstr (k : VmAdcSrc) : ∀ p ∈ INPUT_NAMES k, cstr p.name = p.name := by
  intro p hp
  simp only [INPUT_NAMES, List.mem_cons, List.mem_singleton, List.not_mem_nil, or_false] at hp
  rcases hp with rfl | rfl | rfl | rfl | rfl | rfl | rfl | rfl <;> rfl

/-! ## Poll tick -/

/-- C1: with a poll source configured, one poll tick resolves the source's
id and writes the line `name=v` (decimal) when the outcome is immediate, the
line `name=ERROR` when it failed and nothing when it is deferred; in every case
it queues exactly one further tick, delayed by `poll_period`, and leaves
`poll_source` and `poll_period` as they were. -/
theorem poll_tick_contract (env : Env) (s : State) (src : InputSource)
    (h : s.self.poll_source = some src) :
    let r := get_input_reading env src.id 0 s
    let s' := command_poll_handle env s
    (r.1 = 1 ∨ r.1 = 0 ∨ r.1 = -1) ∧
    (r.1 = 1 → s'.out = s.out ++ (cstr src.name ++ "=".toList ++ fmt_u r.2.1 ++ "\r\n".toList)) ∧
    (r.1 = -1 → s'.out = s.out ++ (cstr src.name ++ "=ERROR\r\n".toList)) ∧
    (r.1 = 0 → s'.out = s.out) ∧
    s'.queue = s.queue ++ [s.self.poll_period] ∧
    s'.trace = r.2.2.trace ++ [Call.MessageSendLater s.self.poll_period] ∧
    s'.self = s.self ∧
    (∀ p ∈ INPUT_NAMES env.adc, cstr p.name = p.name) := by
  intro r s'
  obtain ⟨cs, hcs⟩ := get_input_reading_frame env src.id 0 s
  have hst := get_input_reading_status env src.id 0 s
  have hline : cstr (cstr src.name ++ "=".toList ++ fmt_u r.2.1 ++ CRLF)
      = cstr src.name ++ "=".toList ++ fmt_u r.2.1 ++ CRLF := by
    apply cstr_eq_self
    intro c hc
    simp only [List.mem_append] at hc
    rcases hc with ((hc | hc) | hc) | hc
    · exact cstr_ne_NUL _ c hc
    · revert c; decide
    · exact fmt_u_ne_NUL _ c hc
    · exact CRLF_ne_NUL c hc
  have herr : cstr (cstr src.name ++ "=ERROR\r\n".toList)
      = cstr src.name ++ "=ERROR\r\n".toList := by
    apply cstr_eq_self
    intro c hc
    simp only [List.mem_append] at hc
    rcases hc with hc | hc
    · exact cstr_ne_NUL _ c hc
    · revert c; decide
  have hs' : s' = command_poll_handle env s := rfl
  have hr : r = get_input_reading env src.id 0 s := rfl
  rw [← hr] at hcs hst
  unfold command_poll_handle at hs'
  simp only [h] at hs'
  rw [← hr] at hs'
  refine ⟨hst, ?_, ?_, ?_, ?_, ?_, ?_, table_names_cstr env.adc⟩
  · intro h1
    simp only [h1] at hs'
    rw [hs']
    simp only [sink_write_str, MessageSendLater, State.log, hcs]
    change s.out ++ cstr (cstr src.name ++ "=".toList ++ fmt_u r.2.1 ++ CRLF) = _
    rw [hline]; rfl
  · intro h1
    simp only [h1] at hs'
    rw [hs']
    simp only [sink_write_str, MessageSendLater, State.log, hcs]
    change s.out ++ cstr (cstr src.name ++ "=ERROR\r\n".toList) = _
    rw [herr]
  · intro h1
    simp only [h1] at hs'
    rw [hs']
    simp [MessageSendLater, State.log, hcs]
  · rw [hs']
    split_ifs <;> simp [sink_write_str, MessageSendLater, State.log, hcs]
  · rw [hs']
    split_ifs <;> simp [sink_write_str, MessageSendLater, State.log, hcs]
  · rw [hs']
    split_ifs <;> simp [sink_write_str, MessageSendLater, State.log, hcs]

theorem poll_tick_contract_witness :
    pollingTemp.self.poll_source = some ⟨"TEMP".toList, TEMP⟩ ∧
    (get_input_reading Env.plain TEMP 0 pollingTemp).1 = 1 ∧
    (command_poll_handle Env.plain pollingTemp).out = "TEMP=23\r\n".toList ∧
    (command_poll_handle Env.plain pollingTemp).queue = [5, 5] :=
  ⟨rfl, by decide,
    (poll_tick_contract Env.plain pollingTemp ⟨"TEMP".toList, TEMP⟩ rfl).2.1 (by decide),
    (poll_tick_contract Env.plain pollingTemp ⟨"TEMP".toList, TEMP⟩ rfl).2.2.2.2.1⟩

/-! ## Effects of the handlers on the poll fields, the sink and the queue -/

theorem command_pskey_get_loop_eq (ws : List Nat) (s : State) :
    command_pskey_get_loop ws s = { s with out := s.out ++ pskey_tokens ws } := by
  induction ws generalizing s with
  | nil => simp [command_pskey_get_loop, pskey_tokens]
  | cons w ws ih =>
    simp [command_pskey_get_loop, ih, sink_write, pskey_tokens, List.flatMap_cons]

theorem command_poll_set_scan_eq (args : command_poll_set_args) (l : List InputSource)
    (s : State) :
    command_poll_set_scan args l s =
      match l.find? (fun p => strncmp args.input.data p.name args.input.length == 0) with
      | none => write_error s
      | some p =>
        { s with self := ⟨some p, args.period⟩, out := s.out ++ "OK\r\n".toList,
                 queue := s.queue ++ [0], trace := s.trace ++ [Call.MessageSend] } := by
  induction l with
  | nil => simp [command_poll_set_scan]
  | cons p rest ih =>
    by_cases h : strncmp args.input.data p.name args.input.length = 0
    · simp [command_poll_set_scan, h, List.find?_cons, write_ok_eq, MessageSend, State.log]
    · simp [command_poll_set_scan, h, List.find?_cons, ih]

theorem command_poll_set_miss (env : Env) (args : command_poll_set_args) (s : State)
    (h : lookup env.adc args.input = none) :
    command_poll_set env args s = write_error s := by
  unfold lookup at h
  rw [command_poll_set, command_poll_set_scan_eq, h]

theorem command_poll_set_hit (env : Env) (args : command_poll_set_args) (s : State)
    (p : InputSource) (h : lookup env.adc args.input = some p) :
    command_poll_set env args s =
      { s with self := ⟨some p, args.period⟩, out := s.out ++ "OK\r\n".toList,
               queue := s.queue ++ [0], trace := s.trace ++ [Call.MessageSend] } := by
  unfold lookup at h
  rw [command_poll_set, command_poll_set_scan_eq, h]

theorem exec_self (env : Env) (c : Command) (s : State)
    (h1 : c.isPollSetHit env = false) (h2 : c.isPollReset = false) :
    (c.exec env s).self = s.self := by
  cases c
  case poll_set args =>
    have h1 : lookup env.adc args.input = none := by
      cases hl : lookup env.adc args.input with
      | none => rfl
      | some p => simp [Command.isPollSetHit, hl] at h1
    simp [Command.exec, command_poll_set_miss env args s h1, write_error_eq]
  case poll_reset => simp [Command.isPollReset] at h2
  case pskey_get k =>
    simp only [Command.exec, command_pskey_get, PsFullRetrieve, command_pskey_get_loop_eq]
    split_ifs <;> rfl
  case gpio_pin_set a =>
    simp only [Command.exec, command_gpio_pin_set]
    split_ifs <;> rfl
  case rts_set v =>
    simp only [Command.exec, command_rts_set, PioSetRts]
    split_ifs <;> rfl
  case adc_get ch =>
    simp only [Command.exec, command_adc_get, AdcRequest]
    split_ifs <;> rfl
  all_goals rfl

theorem command_poll_handle_idle (env : Env) (s : State) (h : s.self.poll_source = none) :
    command_poll_handle env s = s := by
  simp [command_poll_handle, h]

theorem exec_out_append (env : Env) (c : Command) (s : State) :
    ∃ w, (c.exec env s).out = s.out ++ w := by
  cases c
  case poll_set args =>
    simp only [Command.exec, command_poll_set, command_poll_set_scan_eq]
    split
    · exact ⟨_, rfl⟩
    · exact ⟨_, rfl⟩
  case pskey_get k =>
    simp only [Command.exec, command_pskey_get, PsFullRetrieve, command_pskey_get_loop_eq,
      write_ok_uint, sink_write_str, State.log]
    split_ifs
    · exact ⟨_, rfl⟩
    · exact ⟨_, List.append_assoc _ _ _⟩
  case gpio_pin_set a =>
    simp only [Command.exec, command_gpio_pin_set]
    split_ifs <;> exact ⟨_, rfl⟩
  case rts_set v =>
    simp only [Command.exec, command_rts_set, PioSetRts]
    split_ifs <;> exact ⟨_, rfl⟩
  case adc_get ch =>
    simp only [Command.exec, command_adc_get, AdcRequest]
    split_ifs
    · exact ⟨_, rfl⟩
    · exact ⟨[], by simp [State.log]⟩
  case bt_version_get =>
    exact ⟨[], by simp [Command.exec, command_bt_version_get, ConnectionReadBtVersion, State.log]⟩
  case local_version_get =>
    exact ⟨[], by
      simp [Command.exec, command_local_version_get, ConnectionReadLocalVersion, State.log]⟩
  case bt_version_handle v =>
    exact ⟨_, by
      simp only [Command.exec, command_bt_version_handle, sink_write, sink_write_str,
        List.append_assoc]; rfl⟩
  case local_version_handle m =>
    exact ⟨_, by
      simp only [Command.exec, command_local_version_handle, sink_write_str,
        List.append_assoc]; rfl⟩
  case software_version =>
    exact ⟨_, by
      simp only [Command.exec, command_software_version, write_ok_eq, sink_write,
        List.append_assoc]; rfl⟩
  all_goals exact ⟨_, rfl⟩

theorem exec_queue (env : Env) (c : Command) (s : State) :
    (c.exec env s).queue = s.queue ++ (if c.isPollSetHit env then [0] else []) := by
  cases c
  case poll_set args =>
    simp only [Command.exec, command_poll_set, command_poll_set_scan_eq, Command.isPollSetHit, lookup]
    split <;> rename_i h <;> simp [h, write_error_eq]
  case pskey_get k =>
    simp only [Command.exec, command_pskey_get, PsFullRetrieve, command_pskey_get_loop_eq,
      Command.isPollSetHit, Bool.false_eq_true, if_false, List.append_nil]
    split_ifs <;> rfl
  case gpio_pin_set a =>
    simp only [Command.exec, command_gpio_pin_set, Command.isPollSetHit, Bool.false_eq_true,
      if_false, List.append_nil]
    split_ifs <;> rfl
  case rts_set v =>
    simp only [Command.exec, command_rts_set, PioSetRts, Command.isPollSetHit,
      Bool.false_eq_true, if_false, List.append_nil]
    split_ifs <;> rfl
  case adc_get ch =>
    simp only [Command.exec, command_adc_get, AdcRequest, Command.isPollSetHit,
      Bool.false_eq_true, if_false, List.append_nil]
    split_ifs <;> rfl
  all_goals simp [Command.exec, Command.isPollSetHit]; rfl

/-- A poll tick with a source configured changes only the sink, the queue and
the trace, and queues exactly one message, delayed by the poll period. -/
theorem command_poll_handle_polling (env : Env) (s : State) (src : InputSource)
    (h : s.self.poll_source = some src) :
    ∃ cs w, command_poll_handle env s =
      { s with out := s.out ++ w, queue := s.queue ++ [s.self.poll_period],
               trace := s.trace ++ cs ++ [Call.MessageSendLater s.self.poll_period] } := by
  obtain ⟨cs, hcs⟩ := get_input_reading_frame env src.id 0 s
  simp only [command_poll_handle, h]
  by_cases h0 : (get_input_reading env src.id 0 s).1 = 0
  · exact ⟨cs, [], by simp [h0, MessageSendLater, State.log, hcs]⟩
  · simp only [ne_eq, h0, not_false_eq_true, if_true]
    exact ⟨cs, _, by simp only [sink_write_str, MessageSendLater, State.log, hcs]; rfl⟩

theorem command_poll_handle_self (env : Env) (s : State) :
    (command_poll_handle env s).self = s.self := by
  cases h : s.self.poll_source with
  | none => simp [command_poll_handle, h]
  | some src =>
    obtain ⟨cs, w, hw⟩ := command_poll_handle_polling env s src h
    rw [hw]

theorem command_poll_handle_out_append (env : Env) (s : State) :
    ∃ w, (command_poll_handle env s).out = s.out ++ w := by
  cases h : s.self.poll_source with
  | none => exact ⟨[], by simp [command_poll_handle, h]⟩
  | some src =>
    obtain ⟨cs, w, hw⟩ := command_poll_handle_polling env s src h
    exact ⟨w, by rw [hw]⟩

theorem command_poll_handle_queue (env : Env) (s : State) :
    (command_poll_handle env s).queue =
      s.queue ++ (if s.self.poll_source.isSome then [s.self.poll_period] else []) := by
  cases h : s.self.poll_source with
  | none => simp [command_poll_handle, h]
  | some src =>
    obtain ⟨cs, w, hw⟩ := command_poll_handle_polling env s src h
    simp [hw]

theorem step_out_append (env : Env) (e : Event) (s : State) :
    ∃ w, (e.step env s).out = s.out ++ w := by
  cases e with
  | command c => exact exec_out_append env c s
  | tick i =>
    simp only [Event.step, deliver_poll]
    split_ifs
    · exact command_poll_handle_out_append env _
    · exact ⟨[], by simp⟩

theorem run_out_append (env : Env) (es : List Event) (s : State) :
    ∃ w, (run env es s).out = s.out ++ w := by
  induction es generalizing s with
  | nil => exact ⟨[], by simp [run]⟩
  | cons e es ih =>
    obtain ⟨w1, h1⟩ := step_out_append env e s
    obtain ⟨w2, h2⟩ := ih (e.step env s)
    exact ⟨w1 ++ w2, by simp [run, h2, h1]⟩

theorem step_queue_length (env : Env) (e : Event) (s : State) :
    (e.step env s).queue.length ≤ s.queue.length + (if e.isPollSetHit env then 1 else 0) := by
  cases e with
  | command c =>
    simp only [Event.step, Event.isPollSetHit, exec_queue]
    split_ifs <;> simp
  | tick i =>
    simp only [Event.step, deliver_poll, Event.isPollSetHit, Bool.false_eq_true, if_false,
      Nat.add_zero]
    by_cases h : i < s.queue.length
    · rw [if_pos h, command_poll_handle_queue]
      have := List.length_eraseIdx_add_one h
      simp only [List.length_append]
      split_ifs <;> simp <;> omega
    · rw [if_neg h]

theorem step_idle (env : Env) (e : Event) (s : State) (he : e.isPollSetHit env = false)
    (h : s.self.poll_source = none) : (e.step env s).self.poll_source = none := by
  cases e with
  | command c =>
    by_cases hr : c.isPollReset = true
    · cases c <;> simp [Command.isPollReset] at hr
      rfl
    · simp only [Event.step]
      rw [exec_self env c s he (by simpa using hr)]
      exact h
  | tick i =>
    simp only [Event.step, deliver_poll]
    split_ifs
    · rw [command_poll_handle_self]; exact h
    · exact h

theorem run_idle (env : Env) (es : List Event) (s : State)
    (hes : ∀ e ∈ es, e.isPollSetHit env = false) (h : s.self.poll_source = none) :
    (run env es s).self.poll_source = none := by
  induction es generalizing s with
  | nil => exact h
  | cons e es ih =>
    simp only [run]
    exact ih _ (fun e' he' => hes e' (List.mem_cons_of_mem _ he'))
      (step_idle env e s (hes e (List.mem_cons_self _ _)) h)

/-! ## Poll lifecycle -/

/-- C2: lazy cancellation.  `command_poll_reset` writes exactly `OK` and leaves
`poll_source` null and `poll_period` 0, whatever the state; and after any
further events that contain no successful `poll_set`, delivering a pending
tick only removes it from the queue: nothing is written, no platform call (read,
ADC request, scheduling) is made, and nothing is queued.  In particular
`poll_set "TEMP" 5`, `poll_reset` and then a pending tick write `OK`, `OK` and
no `TEMP=` line, with `MessageSend` the only platform call. -/
theorem poll_reset_lazy_cancel (env : Env) (s : State) :
    command_poll_reset s = { s with self := ⟨none, 0⟩, out := s.out ++ "OK\r\n".toList } ∧
    (∀ es : List Event, (∀ e ∈ es, e.isPollSetHit env = false) → ∀ i : Nat,
      deliver_poll env i (run env es (command_poll_reset s)) =
        { run env es (command_poll_reset s) with
          queue := (run env es (command_poll_reset s)).queue.eraseIdx i }) ∧
    (∀ i : Nat,
      run env [.command (.poll_set ⟨⟨"TEMP".toList, 4⟩, 5⟩), .command .poll_reset, .tick i] s =
        { s with self := ⟨none, 0⟩, out := s.out ++ "OK\r\n".toList ++ "OK\r\n".toList,
                 queue := (s.queue ++ [0]).eraseIdx i,
                 trace := s.trace ++ [Call.MessageSend] }) := by
  refine ⟨rfl, ?_, ?_⟩
  · intro es hes i
    have hidle := run_idle env es (command_poll_reset s) hes rfl
    simp only [deliver_poll]
    split_ifs with hi
    · exact command_poll_handle_idle env _ hidle
    · rw [List.eraseIdx_of_length_le (by omega)]
  · intro i
    have hl : lookup env.adc ⟨"TEMP".toList, 4⟩ = some ⟨"TEMP".toList, TEMP⟩ := by
      simp [lookup, INPUT_NAMES, List.find?_cons, strncmp, NUL]
    simp only [run, Event.step, Command.exec]
    rw [command_poll_set_hit env _ s _ hl]
    simp only [deliver_poll, command_poll_reset, write_ok_eq]
    split_ifs with hi
    · exact command_poll_handle_idle env _ rfl
    · rw [List.eraseIdx_of_length_le (by simpa using hi)]

theorem poll_reset_lazy_cancel_witness :
    (∀ e ∈ noPollSetEvents, e.isPollSetHit Env.plain = false) ∧
    deliver_poll Env.plain 0 (run Env.plain noPollSetEvents (command_poll_reset pollingTemp)) =
      { run Env.plain noPollSetEvents (command_poll_reset pollingTemp) with
        queue := (run Env.plain noPollSetEvents (command_poll_reset pollingTemp)).queue.eraseIdx 0 } :=
  ⟨by decide, (poll_reset_lazy_cancel Env.plain pollingTemp).2.1 noPollSetEvents (by decide) 0⟩

/-- C3 (as stated, refuted): from a state with nothing pending, two successful
`poll_set` commands leave two pending ticks, and delivering both leaves two
again, so two tick streams run side by side. -/
theorem pending_ticks_can_double :
    State.init.queue = [] ∧
    (run Env.plain [.command (.poll_set ⟨⟨"TEMP".toList, 4⟩, 5⟩),
                    .command (.poll_set ⟨⟨"GPIO".toList, 4⟩, 7⟩)] State.init).queue = [0, 0] ∧
    (run Env.plain [.command (.poll_set ⟨⟨"TEMP".toList, 4⟩, 5⟩),
                    .command (.poll_set ⟨⟨"GPIO".toList, 4⟩, 7⟩),
                    .tick 0, .tick 0] State.init).queue = [7, 7] := by
  decide

/-- Delivering a tick removes it from the queue and, when a poll source is
configured, appends one message delayed by the poll period; a position that
holds no message leaves the queue alone. -/
theorem deliver_poll_queue (env : Env) (i : Nat) (s : State) :
    (deliver_poll env i s).queue =
      if i < s.queue.length then
        s.queue.eraseIdx i ++ (if s.self.poll_source.isSome then [s.self.poll_period] else [])
      else s.queue := by
  simp only [deliver_poll]
  split_ifs with hi <;> first | rfl | (rw [command_poll_handle_queue]; simp_all)

theorem deliver_poll_self (env : Env) (i : Nat) (s : State) :
    (deliver_poll env i s).self = s.self := by
  simp only [deliver_poll]
  split_ifs
  · rw [command_poll_handle_self]
  · rfl

theorem deliver_poll_queue_length (env : Env) (i : Nat) (s : State) :
    (deliver_poll env i s).queue.length =
      if i < s.queue.length ∧ s.self.poll_source = none then s.queue.length - 1
      else s.queue.length := by
  rw [deliver_poll_queue]
  by_cases hi : i < s.queue.length
  · have := List.length_eraseIdx_add_one hi
    cases hp : s.self.poll_source with
    | none => simp [hi]; omega
    | some src => simp [hi]; omega
  · simp [hi]

theorem run_ticks_polling (env : Env) (ticks : List Nat) (s : State)
    (h : s.self.poll_source.isSome = true) :
    (run env (ticks.map Event.tick) s).queue.length = s.queue.length ∧
    (run env (ticks.map Event.tick) s).self = s.self := by
  induction ticks generalizing s with
  | nil => exact ⟨rfl, rfl⟩
  | cons i ticks ih =>
    simp only [List.map_cons, run, Event.step]
    have hself := deliver_poll_self env i s
    have hlen := deliver_poll_queue_length env i s
    have hne : ¬ s.self.poll_source = none := by
      intro hn; rw [hn] at h; exact absurd h (by decide)
    rw [if_neg (fun hc => hne hc.2)] at hlen
    obtain ⟨h1, h2⟩ := ih (deliver_poll env i s) (by rw [hself]; exact h)
    exact ⟨h1.trans hlen, h2.trans hself⟩

theorem run_queue_length_le (env : Env) (es : List Event) (s : State) :
    (run env es s).queue.length ≤ s.queue.length + es.countP (fun e => e.isPollSetHit env) := by
  induction es generalizing s with
  | nil => simp [run]
  | cons e es ih =>
    have h1 := step_queue_length env e s
    have h2 := ih (e.step env s)
    simp only [run, List.countP_cons]
    split_ifs at h1 with he <;> simp [he] <;> omega

/-- C3 (amended): a successful `poll_set` appends exactly one zero-delay tick
to the pending queue and cancels none; no other command changes the queue;
delivering a pending tick removes it and, when a poll source is configured,
appends exactly one tick delayed by `poll_period`, so the number pending stays
the same, while with no source configured it drops by one.  Hence while a
source is configured any run of tick deliveries leaves the number pending and
the poll fields as they were (two pending ticks stay two), and after any
sequence of events the number pending is at most the number pending at the
start plus the number of successful `poll_set` commands. -/
theorem pending_ticks_accounting (env : Env) (s : State) :
    (∀ c : Command,
      (c.exec env s).queue = s.queue ++ (if c.isPollSetHit env then [0] else [])) ∧
    (∀ i : Nat, (deliver_poll env i s).queue =
      if i < s.queue.length then
        s.queue.eraseIdx i ++ (if s.self.poll_source.isSome then [s.self.poll_period] else [])
      else s.queue) ∧
    (∀ i : Nat, (deliver_poll env i s).queue.length =
      if i < s.queue.length ∧ s.self.poll_source = none then s.queue.length - 1
      else s.queue.length) ∧
    (∀ ticks : List Nat, s.self.poll_source.isSome = true →
      (run env (ticks.map Event.tick) s).queue.length = s.queue.length ∧
      (run env (ticks.map Event.tick) s).self = s.self) ∧
    (∀ es : List Event,
      (run env es s).queue.length ≤
        s.queue.length + es.countP (fun e => e.isPollSetHit env)) :=
  ⟨fun c => exec_queue env c s, fun i => deliver_poll_queue env i s,
    fun i => deliver_poll_queue_length env i s,
    fun ticks h => run_ticks_polling env ticks s h,
    fun es => run_queue_length_le env es s⟩

theorem pending_ticks_accounting_witness :
    twoStreams.self.poll_source.isSome = true ∧ twoStreams.queue = [0, 0] ∧
    (run Env.plain ([0, 0, 1, 0, 1].map Event.tick) twoStreams).queue.length = 2 ∧
    (run Env.plain ([0, 0, 1, 0, 1].map Event.tick) twoStreams).self = twoStreams.self :=
  ⟨by decide, by decide,
    ((pending_ticks_accounting Env.plain twoStreams).2.2.2.1 [0, 0, 1, 0, 1] (by decide)).1,
    ((pending_ticks_accounting Env.plain twoStreams).2.2.2.1 [0, 0, 1, 0, 1] (by decide)).2⟩

/-- C4: `command_poll_set`.  On a lookup miss it writes exactly `ERROR` and
changes nothing else (no message is sent).  On a hit it stores the matched
table entry and the requested period, queues exactly one zero-delay tick
message, and writes exactly `OK`; whatever is written by later events
(so every sample line) follows that `OK`. -/
theorem poll_set_contract (env : Env) (args : command_poll_set_args) (s : State) :
    match lookup env.adc args.input with
    | none => command_poll_set env args s = { s with out := s.out ++ "ERROR\r\n".toList }
    | some p =>
      p ∈ INPUT_NAMES env.adc ∧
      command_poll_set env args s =
        { s with self := ⟨some p, args.period⟩, out := s.out ++ "OK\r\n".toList,
                 queue := s.queue ++ [0], trace := s.trace ++ [Call.MessageSend] } ∧
      ∀ es : List Event, ∃ rest,
        (run env es (command_poll_set env args s)).out = s.out ++ "OK\r\n".toList ++ rest := by
  cases h : lookup env.adc args.input with
  | none => simp only [command_poll_set_miss env args s h, write_error_eq]
  | some p =>
    refine ⟨?_, command_poll_set_hit env args s p h, ?_⟩
    · exact List.mem_of_find?_eq_some h
    · intro es
      obtain ⟨w, hw⟩ := run_out_append env es (command_poll_set env args s)
      exact ⟨w, by rw [hw, command_poll_set_hit env args s p h]⟩

/-! ## Frame -/

/-- C9: every handler other than a successful `poll_set` and `poll_reset`
leaves `poll_source` and `poll_period` as they were (this covers `poll_set`
with an unknown name and all GPIO, ADC, clock, pskey and version handlers); so
does the poll tick; and `handleUnrecognised` writes exactly `ERROR` and changes
nothing else. -/
theorem polling_state_frame (env : Env) (s : State) :
    (∀ c : Command, c.isPollSetHit env = false → c.isPollReset = false →
      (c.exec env s).self = s.self) ∧
    (command_poll_handle env s).self = s.self ∧
    (∀ (data : Bytes) (length : Nat),
      handleUnrecognised data length s = { s with out := s.out ++ "ERROR\r\n".toList }) :=
  ⟨fun c h1 h2 => exec_self env c s h1 h2, command_poll_handle_self env s, fun _ _ => rfl⟩

theorem polling_state_frame_witness :
    (Command.poll_set ⟨⟨"BOGUS".toList, 5⟩, 9⟩).isPollSetHit Env.plain = false ∧
    (Command.poll_set ⟨⟨"BOGUS".toList, 5⟩, 9⟩).isPollReset = false ∧
    ((Command.poll_set ⟨⟨"BOGUS".toList, 5⟩, 9⟩).exec Env.plain pollingTemp).self =
      ⟨some ⟨"TEMP".toList, TEMP⟩, 5⟩ :=
  ⟨by decide, by decide,
    (polling_state_frame Env.plain pollingTemp).1 (.poll_set ⟨⟨"BOGUS".toList, 5⟩, 9⟩)
      (by decide) (by decide)⟩

/-! ## Mask/bits registers -/

theorem u16_testBit (x j : Nat) : (u16 x).testBit j = (decide (j < 16) && x.testBit j) := by
  unfold u16
  rw [show 65536 = 2 ^ 16 by norm_num, Nat.testBit_mod_two_pow]

theorem not16_testBit (m j : Nat) :
    (not16 m).testBit j = (decide (j < 16) && !m.testBit j) := by
  unfold not16
  rw [Nat.testBit_xor, show 65535 = 2 ^ 16 - 1 by norm_num, Nat.testBit_two_pow_sub_one,
    u16_testBit]
  cases decide (j < 16) <;> simp

theorem maskBits_testBit (old mask bits j : Nat) :
    (maskBits old mask bits).testBit j =
      (decide (j < 16) && (if mask.testBit j then bits.testBit j else old.testBit j)) := by
  unfold maskBits
  rw [Nat.testBit_or, Nat.testBit_and, Nat.testBit_and, not16_testBit, u16_testBit, u16_testBit,
    u16_testBit]
  cases decide (j < 16) <;> cases mask.testBit j <;> simp

theorem testBit_of_lt_u16 {x : Nat} (hx : x < 65536) {j : Nat} (hj : ¬ j < 16) :
    x.testBit j = false := by
  apply Nat.testBit_lt_two_pow
  calc x < 2 ^ 16 := by simpa using hx
    _ ≤ 2 ^ j := Nat.pow_le_pow_right (by norm_num) (by omega)

theorem u16_of_lt {x : Nat} (hx : x < 65536) : u16 x = x := Nat.mod_eq_of_lt hx

theorem maskBits_lt (old mask bits : Nat) : maskBits old mask bits < 65536 := by
  have h : maskBits old mask bits < 2 ^ 16 := by
    apply Nat.lt_pow_two_of_testBit
    intro j hj
    rw [maskBits_testBit]
    simp [show ¬ j < 16 by omega]
  simpa using h

theorem Token.head_of_text {tok : Token} {c : Char} {cs : Bytes} (h : tok.text = c :: cs) :
    tok.data.headD NUL = c := by
  unfold Token.text at h
  cases hd : tok.data with
  | nil => simp [hd] at h
  | cons d ds =>
    cases hl : tok.length with
    | zero => simp [hl] at h
    | succ n =>
      rw [hd, hl, List.take_succ_cons] at h
      simp only [List.headD_cons]
      exact (List.cons.inj h).1

theorem pin_mask (pin : Nat) (hpin : pin < 16) : u16 (1 <<< pin) = 2 ^ pin := by
  rw [Nat.one_shiftLeft]
  apply u16_of_lt
  calc 2 ^ pin < 2 ^ 16 := Nat.pow_lt_pow_right (by norm_num) hpin
    _ = 65536 := by norm_num

/-- C10: `command_gpio_pin_set` for a pin in 0..15, with the port setter
following mask/bits semantics.  A value spelling `toggle` in any letter case
inverts bit `pin`, the value `0` clears it and the value `1` sets it; every
other bit of the port stays as it was; the reply is exactly `OK`; and two
successive toggles restore the port. -/
theorem gpio_pin_set_contract (s : State) (pin : Nat) (value : Token)
    (hpin : pin < 16) (hs : s.pio < 65536) :
    (command_gpio_pin_set ⟨pin, value⟩ s).out = s.out ++ "OK\r\n".toList ∧
    (value.text.map tolower = "toggle".toList →
      (∀ j, (command_gpio_pin_set ⟨pin, value⟩ s).pio.testBit j =
        if j = pin then !s.pio.testBit j else s.pio.testBit j) ∧
      (command_gpio_pin_set ⟨pin, value⟩ (command_gpio_pin_set ⟨pin, value⟩ s)).pio = s.pio) ∧
    (value.text = "0".toList →
      ∀ j, (command_gpio_pin_set ⟨pin, value⟩ s).pio.testBit j =
        if j = pin then false else s.pio.testBit j) ∧
    (value.text = "1".toList →
      ∀ j, (command_gpio_pin_set ⟨pin, value⟩ s).pio.testBit j =
        if j = pin then true else s.pio.testBit j) := by
  have hmask := pin_mask pin hpin
  have hbit : ∀ j, ¬ j < 16 → s.pio.testBit j = false := fun j hj => testBit_of_lt_u16 hs hj
  have htoggle : ∀ t : State, t.pio < 65536 → tolower (value.data.headD NUL) = 't' →
      ∀ j, (command_gpio_pin_set ⟨pin, value⟩ t).pio.testBit j =
        if j = pin then !t.pio.testBit j else t.pio.testBit j := by
    intro t ht h j
    simp only [command_gpio_pin_set, h, if_true, hmask, PioGet, PioSet, write_ok_eq, State.log,
      maskBits_testBit, Nat.testBit_two_pow, Nat.testBit_xor, u16_testBit]
    by_cases hj : j < 16
    · by_cases hp : pin = j
      · subst hp; simp [hj]
      · simp [hj, hp, Ne.symm hp]
    · have : pin ≠ j := by omega
      simp [hj, this, Ne.symm this, testBit_of_lt_u16 ht hj]
  refine ⟨?_, ?_, ?_, ?_⟩
  · simp only [command_gpio_pin_set]
    split_ifs <;> rfl
  · intro h
    have hc : tolower (value.data.headD NUL) = 't' := by
      cases ht : value.text with
      | nil => simp [ht] at h
      | cons c cs =>
        rw [ht] at h
        rw [Token.head_of_text ht]
        exact (List.cons.inj h).1
    refine ⟨htoggle s hs hc, ?_⟩
    have hlt : (command_gpio_pin_set ⟨pin, value⟩ s).pio < 65536 := by
      simp only [command_gpio_pin_set, hc, if_true, PioGet, PioSet, write_ok_eq, State.log]
      exact maskBits_lt _ _ _
    apply Nat.eq_of_testBit_eq
    intro j
    rw [htoggle _ hlt hc j, htoggle s hs hc j]
    split_ifs <;> simp
  · intro h j
    have hc : value.data.headD NUL = '0' := Token.head_of_text h
    simp only [command_gpio_pin_set, hc, hmask, PioSet, write_ok_eq, State.log,
      maskBits_testBit, Nat.testBit_two_pow]
    rw [if_neg (by decide)]
    simp only [maskBits_testBit, Nat.testBit_two_pow, Nat.zero_testBit]
    by_cases hj : j < 16
    · by_cases hp : pin = j
      · subst hp; simp [hj]
      · simp [hj, hp, Ne.symm hp]
    · have : pin ≠ j := by omega
      simp [hj, this, Ne.symm this, hbit j hj]
  · intro h j
    have hc : value.data.headD NUL = '1' := Token.head_of_text h
    simp only [command_gpio_pin_set, hc, hmask, PioSet, write_ok_eq, State.log,
      maskBits_testBit, Nat.testBit_two_pow]
    rw [if_neg (by decide), if_neg (by decide)]
    simp only [maskBits_testBit, Nat.testBit_two_pow]
    by_cases hj : j < 16
    · by_cases hp : pin = j
      · subst hp; simp [hj]
      · simp [hj, hp, Ne.symm hp]
    · have : pin ≠ j := by omega
      simp [hj, this, Ne.symm this, hbit j hj]

theorem gpio_pin_set_contract_witness :
    (3 : Nat) < 16 ∧ portABC0.pio < 65536 ∧
    (Token.mk "Toggle\r".toList 6).text.map tolower = "toggle".toList ∧
    (command_gpio_pin_set ⟨3, ⟨"Toggle\r".toList, 6⟩⟩
      (command_gpio_pin_set ⟨3, ⟨"Toggle\r".toList, 6⟩⟩ portABC0)).pio = 0xABC0 :=
  ⟨by decide, by decide, by decide,
    ((gpio_pin_set_contract portABC0 3 ⟨"Toggle\r".toList, 6⟩ (by decide) (by decide)).2.1
      (by decide)).2⟩

/-! ## The reading resolver -/

/-- C7 (as stated, refuted): with the sequential numbering, the id -1 is none
of the eight known ids, yet `get_input_reading` issues an ADC request for it
and, the request being accepted, returns 0 (deferred) instead of -1. -/
theorem get_input_reading_low_id_requests_adc :
    (-1 : Int) ∉ [ADC0 adcSrcSequential, ADC1 adcSrcSequential, ADC2 adcSrcSequential,
      ADC3 adcSrcSequential, ADC4 adcSrcSequential, ADC5 adcSrcSequential, GPIO, TEMP] ∧
    (get_input_reading Env.plain (-1) 0 State.init).1 = 0 ∧
    (get_input_reading Env.plain (-1) 0 State.init).2.2.trace = [Call.AdcRequest (-1)] := by
  decide

/-- C7 (amended): provided `ADC5` is the largest analog id and lies below
the GPIO id, `get_input_reading` issues one ADC request for each of
`ADC0..ADC5` and returns -1 if it is rejected and 0 otherwise, leaving `*value`
alone; for the GPIO id it returns 1 with the port state; for `TEMP` it returns 1
with the temperature; for every id above `ADC5` other than those two it returns
-1 and makes no platform call; and every id up to `ADC5`, known or not, is
issued as an ADC request. -/
theorem get_input_reading_split (env : Env) (v : Nat) (s : State) (hk : env.adc.ordered) :
    (∀ id ∈ [ADC0 env.adc, ADC1 env.adc, ADC2 env.adc, ADC3 env.adc, ADC4 env.adc, ADC5 env.adc],
      get_input_reading env id v s =
        (if env.adcAccepts s.trace id then 0 else -1, v, s.log (Call.AdcRequest id))) ∧
    get_input_reading env GPIO v s = (1, u16 s.pio, s.log Call.PioGet) ∧
    get_input_reading env TEMP v s = (1, u16 s.temperature, s.log Call.VmGetTemperature) ∧
    (∀ id, ADC5 env.adc < id → id ≠ GPIO → id ≠ TEMP →
      get_input_reading env id v s = (-1, v, s)) ∧
    (∀ id, id ≤ ADC5 env.adc →
      get_input_reading env id v s =
        (if env.adcAccepts s.trace id then 0 else -1, v, s.log (Call.AdcRequest id))) := by
  obtain ⟨h0, h1, h2, h3, h4, h5⟩ := hk
  have hlow : ∀ id, id ≤ ADC5 env.adc →
      get_input_reading env id v s =
        (if env.adcAccepts s.trace id then 0 else -1, v, s.log (Call.AdcRequest id)) := by
    intro id hid
    simp only [get_input_reading, hid, if_true, AdcRequest]
    cases env.adcAccepts s.trace id <;> simp
  have hG : ¬ GPIO ≤ ADC5 env.adc := by omega
  have hT : ¬ TEMP ≤ ADC5 env.adc := by unfold TEMP; unfold GPIO at h5; omega
  refine ⟨?_, ?_, ?_, ?_, hlow⟩
  · intro id hid
    apply hlow
    simp only [List.mem_cons, List.mem_singleton, List.not_mem_nil, or_false] at hid
    rcases hid with rfl | rfl | rfl | rfl | rfl | rfl <;> first | assumption | exact le_refl _
  · simp only [get_input_reading, hG, if_false, if_true, PioGet, u16, Nat.mod_mod]
  · simp only [get_input_reading, hT, if_false, VmGetTemperature]
    rw [if_neg (by decide)]
    simp
  · intro id hid hg ht
    simp only [get_input_reading, not_le.2 hid, hg, ht, if_false]

theorem get_input_reading_split_witness :
    adcSrcSequential.ordered ∧
    get_input_reading Env.plain 7 0 State.init = (-1, 0, State.init) ∧
    (get_input_reading Env.plain TEMP 0 pollingTemp).2.1 = 23 :=
  ⟨by decide,
    (get_input_reading_split Env.plain 0 State.init (by decide)).2.2.2.1 7
      (by decide) (by decide) (by decide),
    congrArg (fun r => r.2.1) (get_input_reading_split Env.plain 0 pollingTemp (by decide)).2.2.1⟩

/-! ## Name lookup -/

theorem strncmp_self_head (c d : Char) (h : (c.toNat : Int) - (d.toNat : Int) = 0) : c = d := by
  have h' : c.toNat = d.toNat := by omega
  rw [← Char.ofNat_toNat c, ← Char.ofNat_toNat d, h']

theorem cstr_nil : cstr [] = [] := rfl

theorem cstr_cons (c : Char) (cs : Bytes) :
    cstr (c :: cs) = if c = NUL then [] else c :: cstr cs := by
  unfold cstr
  by_cases h : c = NUL <;> simp [List.takeWhile_cons, h]

/-- `strncmp` yields 0 exactly when the two C strings agree on their first `n`
characters. -/
theorem strncmp_eq_zero_iff (n : Nat) : ∀ a b : Bytes,
    strncmp a b n = 0 ↔ (cstr a).take n = (cstr b).take n := by
  induction n with
  | zero => intro a b; simp [strncmp]
  | succ n ih =>
    intro a b
    have hsub : ∀ c d : Char, c ≠ d → (c.toNat : Int) - (d.toNat : Int) ≠ 0 :=
      fun c d hcd h => hcd (strncmp_self_head c d h)
    cases a with
    | nil =>
      cases b with
      | nil => simp [strncmp]
      | cons d ds =>
        by_cases hd : d = NUL
        · simp [strncmp, cstr_cons, hd, cstr_nil]
        · have hd' : NUL ≠ d := fun h => hd h.symm
          simp [strncmp, cstr_cons, hd, cstr_nil, hd', hsub NUL d hd']
    | cons c cs =>
      cases b with
      | nil =>
        by_cases hc : c = NUL
        · simp [strncmp, cstr_cons, hc, cstr_nil]
        · simp [strncmp, cstr_cons, hc, cstr_nil, hsub c NUL hc]
      | cons d ds =>
        by_cases hcd : c = d
        · subst hcd
          by_cases hc : c = NUL
          · simp [strncmp, cstr_cons, hc]
          · simp [strncmp, cstr_cons, hc, ih cs ds]
        · by_cases hc : c = NUL
          · subst hc
            have hd : ¬ d = NUL := fun h => hcd h.symm
            simp [strncmp, cstr_cons, hd, hcd, hsub NUL d hcd]
          · by_cases hd : d = NUL
            · subst hd
              simp [strncmp, cstr_cons, hc, hsub c NUL hc]
            · simp [strncmp, cstr_cons, hc, hd, hcd, hsub c d hcd]

/-- C5: the name lookup of `command_poll_set` is a first-match scan of the
table under a comparison bounded by the token's declared length: either the
table splits as `pre ++ p :: post` where `p` agrees with the token and no entry
of `pre` does, and `p` is selected; or no entry agrees and the reply is `ERROR`.
Each of the eight names with declared length 4 selects its own entry (whatever
follows the four characters), `ADC2` selects the entry holding the VREF source
constant, `ADC0X` with declared length 4 selects `ADC0`, and `BOGUS` and the
lower-case `adc0` select nothing and are answered with `ERROR`. -/
theorem poll_set_name_lookup (env : Env) (args : command_poll_set_args) (s : State) :
    ((∃ pre p post, INPUT_NAMES env.adc = pre ++ p :: post ∧ args.input.agrees p.name ∧
        (∀ q ∈ pre, ¬ args.input.agrees q.name) ∧
        (command_poll_set env args s).self.poll_source = some p) ∨
     ((∀ q ∈ INPUT_NAMES env.adc, ¬ args.input.agrees q.name) ∧
        command_poll_set env args s = { s with out := s.out ++ "ERROR\r\n".toList })) ∧
    (∀ p ∈ INPUT_NAMES env.adc, ∀ (rest : Bytes) (period : Nat),
      (command_poll_set env ⟨⟨p.name ++ rest, 4⟩, period⟩ s).self.poll_source = some p) ∧
    (∀ period : Nat,
      (command_poll_set env ⟨⟨"ADC2".toList, 4⟩, period⟩ s).self.poll_source =
        some ⟨"ADC2".toList, env.adc.VM_ADC_SRC_VREF⟩) ∧
    (∀ period : Nat,
      (command_poll_set env ⟨⟨"ADC0X".toList, 4⟩, period⟩ s).self.poll_source =
        some ⟨"ADC0".toList, ADC0 env.adc⟩) ∧
    (∀ period : Nat,
      command_poll_set env ⟨⟨"BOGUS".toList, 5⟩, period⟩ s =
        { s with out := s.out ++ "ERROR\r\n".toList }) ∧
    (∀ period : Nat,
      command_poll_set env ⟨⟨"adc0".toList, 4⟩, period⟩ s =
        { s with out := s.out ++ "ERROR\r\n".toList }) := by
  refine ⟨?_, ?_, ?_, ?_, ?_, ?_⟩
  · have hagree : ∀ q : InputSource,
        ((strncmp args.input.data q.name args.input.length == 0) = true) ↔
          args.input.agrees q.name := by
      intro q
      rw [beq_iff_eq, strncmp_eq_zero_iff]
      rfl
    rw [command_poll_set, command_poll_set_scan_eq]
    cases hf : (INPUT_NAMES env.adc).find?
        (fun p => strncmp args.input.data p.name args.input.length == 0) with
    | none =>
      right
      rw [List.find?_eq_none] at hf
      exact ⟨fun q hq hag => hf q hq ((hagree q).2 hag), rfl⟩
    | some p =>
      left
      rw [List.find?_eq_some] at hf
      obtain ⟨hp, pre, post, hsplit, hpre⟩ := hf
      refine ⟨pre, p, post, hsplit, (hagree p).1 hp, ?_, rfl⟩
      intro q hq hag
      have := hpre q hq
      rw [(hagree q).2 hag] at this
      exact absurd this (by decide)
  · intro p hp rest period
    simp only [INPUT_NAMES, List.mem_cons, List.mem_singleton, List.not_mem_nil, or_false] at hp
    rcases hp with rfl | rfl | rfl | rfl | rfl | rfl | rfl | rfl <;>
      simp [command_poll_set, INPUT_NAMES, command_poll_set_scan, strncmp, NUL, write_ok_eq,
        MessageSend, State.log]
  · intro period
    simp [command_poll_set, INPUT_NAMES, command_poll_set_scan, strncmp, NUL, write_ok_eq,
      MessageSend, State.log, ADC2]
  · intro period
    simp [command_poll_set, INPUT_NAMES, command_poll_set_scan, strncmp, NUL, write_ok_eq,
      MessageSend, State.log]
  · intro period
    simp [command_poll_set, INPUT_NAMES, command_poll_set_scan, strncmp, NUL, write_error_eq]
  · intro period
    simp [command_poll_set, INPUT_NAMES, command_poll_set_scan, strncmp, NUL, write_error_eq]

/-! ## Persistent key read -/

/-- What `command_pskey_get` writes: the failure line when no word was
retrieved, otherwise the 3-byte prefixes of the words formatted with `"%X "`,
and then `OK N`. -/
theorem command_pskey_get_out (env : Env) (pskey : Nat) (s : State) :
    (command_pskey_get env pskey s).out =
      if (env.psWords pskey).length = 0 then
        s.out ++ "ERROR: no pskey or value too long\r\n".toList
      else
        s.out ++ pskey_tokens (env.psWords pskey) ++ "OK ".toList ++
          fmt_u (u32 (env.psWords pskey).length) ++ "\r\n".toList := by
  simp only [command_pskey_get, PsFullRetrieve, command_pskey_get_loop_eq]
  split_ifs
  · rfl
  · have hc : cstr ("OK ".toList ++ fmt_u (u32 (env.psWords pskey).length) ++ CRLF)
        = "OK ".toList ++ fmt_u (u32 (env.psWords pskey).length) ++ CRLF := by
      apply cstr_eq_self
      intro c hc
      simp only [List.mem_append] at hc
      rcases hc with (hc | hc) | hc
      · revert c; decide
      · exact fmt_u_ne_NUL _ c hc
      · exact CRLF_ne_NUL c hc
    simp only [write_ok_uint, sink_write_str, State.log, hc]
    simp only [CRLF, List.append_assoc]

/-- C6 (the code at the failing inputs): a stored word `0x1234` is written as
the three bytes `123` with no separator, and a stored word `0x0005` as `5`, a
space and a NUL byte; only words in `0x10..0xFF`, such as `0x2A`, come out as
two hex digits and a separator. -/
theorem pskey_get_token_width :
    (command_pskey_get (Env.withWords [0x1234]) 1 State.init).out = "123OK 1\r\n".toList ∧
    (command_pskey_get (Env.withWords [0x0005]) 1 State.init).out =
      ['5', ' ', NUL] ++ "OK 1\r\n".toList ∧
    (command_pskey_get (Env.withWords [0x2A]) 1 State.init).out = "2A OK 1\r\n".toList ∧
    (command_pskey_get (Env.withWords []) 1 State.init).out =
      "ERROR: no pskey or value too long\r\n".toList := by
  decide

end BluTuNode
